import Mathlib

/-!
Verification of the resource-governance and provider-fallback subsystem of
the youtube-knowledge-mcp repository: the `QuotaManager` budget ledger, the
`CacheManager` TTL cache, and the `RobustLLMService` generation broker.

Numbers that the TypeScript source holds in `number` fields are modelled as
`Int` (all quantities the claims concern are integral); timestamps are
milliseconds as in `Date.now()`.  Logging and persistence calls are external
side effects with no influence on the values the claims speak about and are
omitted from the state-transition functions.
-/

namespace QuotaManager

/-- Configuration of the quota ledger (`QuotaConfig` in the source).
`prioritizeRecent` and `warningThreshold` only influence logging. -/
structure QuotaConfig where
  dailyLimit : Int
  reserveBuffer : Int
  prioritizeRecent : Bool
  warningThreshold : Int

/-- Source `canPerformOperation(cost)`: admission check of the ledger.  The ledger
state is the single counter `usage`. -/
def canPerformOperation (cfg : QuotaConfig) (usage cost : Int) : Bool :=
  usage + cost ≤ cfg.dailyLimit - cfg.reserveBuffer

/-- Source `recordUsage(cost, operation)`: adds `cost` to the usage counter.  The
persistence write and the threshold log lines do not touch the counter. -/
def recordUsage (usage cost : Int) : Int :=
  usage + cost

/-- Source `getAvailableQuota()`: remaining budget excluding the reserve buffer. -/
def getAvailableQuota (cfg : QuotaConfig) (usage : Int) : Int :=
  max 0 (cfg.dailyLimit - cfg.reserveBuffer - usage)

/-- Source `QuotaManager.getOperationCost(operation)`: unit costs with default 1. -/
def getOperationCost (operation : String) : Int :=
  if operation = "search" then 100
  else if operation = "video_details" then 1
  else if operation = "trending" then 1
  else if operation = "comments" then 1
  else if operation = "channel_details" then 1
  else if operation = "channel_search" then 100
  else 1

/-- Source `optimizeOperation(operation, requestedItems)`.  The source compares
`(usage / dailyLimit) * 100 > 80`; for a positive `dailyLimit` this is the
exact rational comparison `100 * usage > 80 * dailyLimit` used here. -/
def optimizeOperation (cfg : QuotaConfig) (usage : Int) (operation : String)
    (requestedItems : Int) : Int :=
  let cost := getOperationCost operation
  let availableQuota := getAvailableQuota cfg usage
  if cost > availableQuota then 0
  else if operation = "video_details" ∨ operation = "channel_details" then
    min requestedItems (availableQuota / cost)
  else if (operation = "search" ∨ operation = "channel_search")
      ∧ 100 * usage > 80 * cfg.dailyLimit then
    min requestedItems 5
  else requestedItems

/-- A run of the ledger through a list of operation costs, each applied with
`recordUsage`. -/
def runTrace (usage : Int) : List Int → Int
  | [] => usage
  | c :: cs => runTrace (recordUsage usage c) cs

/-- A trace is admissible from `usage` when every `recordUsage` step is
immediately preceded by a passing `canPerformOperation` check on its cost. -/
def admissible (cfg : QuotaConfig) (usage : Int) : List Int → Prop
  | [] => True
  | c :: cs => canPerformOperation cfg usage c = true ∧ admissible cfg (recordUsage usage c) cs

/-- Example configuration from the spec scenario: dailyLimit 8000, reserve
buffer 1000, warning threshold 75. -/
def exampleConfig : QuotaConfig :=
  { dailyLimit := 8000, reserveBuffer := 1000, prioritizeRecent := true, warningThreshold := 75 }

end QuotaManager

namespace QuotaManager

theorem admissible_cons {cfg : QuotaConfig} {usage c : Int} {cs : List Int} :
    admissible cfg usage (c :: cs) ↔
      canPerformOperation cfg usage c = true ∧ admissible cfg (recordUsage usage c) cs :=
  Iff.rfl

/-- After an admitted step the usage is within budget. -/
theorem usage_le_of_admitted {cfg : QuotaConfig} {usage c : Int}
    (h : canPerformOperation cfg usage c = true) :
    recordUsage usage c ≤ cfg.dailyLimit - cfg.reserveBuffer := by
  have := of_decide_eq_true h
  simpa [recordUsage] using this

/-- Auxiliary induction: from any in-budget state, every state reached along
an admissible trace after at least one step stays in budget; moreover from an
arbitrary start, all strict prefixes of length ≥ 1 stay in budget. -/
theorem runTrace_le_of_admissible (cfg : QuotaConfig) :
    ∀ (tr : List Int) (usage : Int), admissible cfg usage tr →
      ∀ pre c suf, tr = pre ++ c :: suf →
        runTrace usage (pre ++ [c]) ≤ cfg.dailyLimit - cfg.reserveBuffer := by
  intro tr
  induction tr with
  | nil =>
      intro usage _ pre c suf hpre
      exact absurd hpre (by simp)
  | cons d ds ih =>
      intro usage hadm pre c suf hpre
      obtain ⟨hcan, hrest⟩ := hadm
      cases pre with
      | nil =>
          simp only [List.nil_append] at hpre
          injection hpre with h1 h2
          subst h1
          simpa [runTrace] using usage_le_of_admitted hcan
      | cons p ps =>
          simp only [List.cons_append] at hpre
          injection hpre with h1 h2
          subst h1
          have := ih (recordUsage usage d) hrest ps c suf h2
          simpa [runTrace] using this

end QuotaManager

/-- C1: Budget-admission invariant.  For every sequence of costs in which each
`recordUsage(cost, op)` was immediately preceded by a `canPerformOperation(cost)`
call returning true, the ledger usage satisfies
`usage ≤ dailyLimit − reserveBuffer` at every point of the sequence, i.e.
after every operation of the sequence (decomposed as `pre ++ c :: suf`). -/
theorem quota_admission_never_exceeds_budget (cfg : QuotaManager.QuotaConfig)
    (tr : List Int) (h : QuotaManager.admissible cfg 0 tr) :
    ∀ pre c suf, tr = pre ++ c :: suf →
      QuotaManager.runTrace 0 (pre ++ [c]) ≤ cfg.dailyLimit - cfg.reserveBuffer :=
  QuotaManager.runTrace_le_of_admissible cfg tr 0 h

/-- Witness for C1 at the spec scenario: trace `[6900, 50]` is admissible for
dailyLimit 8000 / reserve 1000, and both intermediate usages stay ≤ 7000. -/
theorem quota_admission_never_exceeds_budget_witness :
    QuotaManager.admissible QuotaManager.exampleConfig 0 [6900, 50] ∧
      QuotaManager.runTrace 0 [6900] ≤ 7000 ∧
      QuotaManager.runTrace 0 [6900, 50] ≤ 7000 := by
  refine ⟨?_, ?_, ?_⟩
  · exact ⟨by decide, by decide, trivial⟩
  · have h : QuotaManager.admissible QuotaManager.exampleConfig 0 [6900, 50] :=
      ⟨by decide, by decide, trivial⟩
    simpa using quota_admission_never_exceeds_budget QuotaManager.exampleConfig
      [6900, 50] h [] 6900 [50] rfl
  · have h : QuotaManager.admissible QuotaManager.exampleConfig 0 [6900, 50] :=
      ⟨by decide, by decide, trivial⟩
    simpa using quota_admission_never_exceeds_budget QuotaManager.exampleConfig
      [6900, 50] h [6900] 50 [] rfl

/-- C3: `canPerformOperation(cost)` returns true iff
`usage + cost ≤ dailyLimit − reserveBuffer`; and in the spec scenario
(dailyLimit 8000, reserveBuffer 1000) after `recordUsage(6900)` the check
for 50 passes and the check for 150 fails. -/
theorem canAdmit_postcondition (cfg : QuotaManager.QuotaConfig) (usage cost : Int) :
    (QuotaManager.canPerformOperation cfg usage cost = true ↔
        usage + cost ≤ cfg.dailyLimit - cfg.reserveBuffer) ∧
      QuotaManager.canPerformOperation QuotaManager.exampleConfig
        (QuotaManager.recordUsage 0 6900) 50 = true ∧
      QuotaManager.canPerformOperation QuotaManager.exampleConfig
        (QuotaManager.recordUsage 0 6900) 150 = false := by
  refine ⟨?_, by decide, by decide⟩
  simp [QuotaManager.canPerformOperation]

/-- C7: postcondition of `optimizeOperation`, reading the claim's clauses in
the order the code applies them: (a) result 0 whenever the kind's unit cost
exceeds the available budget `max 0 (dailyLimit − reserveBuffer − usage)`;
(b) for the per-item kinds the result is `min requested ⌊available / cost⌋`
(unconditionally, since their unit cost is 1); (c) for the search-like kinds,
when the unit cost fits the budget, the result is `min requested 5` once
usage exceeds 80% of the daily limit and `requested` otherwise. -/
theorem optimizeRequestSize_postcondition (cfg : QuotaManager.QuotaConfig)
    (usage requested : Int) (operation : String) (hreq : 0 ≤ requested) :
    (QuotaManager.getOperationCost operation > QuotaManager.getAvailableQuota cfg usage →
        QuotaManager.optimizeOperation cfg usage operation requested = 0) ∧
      ((operation = "video_details" ∨ operation = "channel_details") →
        QuotaManager.optimizeOperation cfg usage operation requested =
          min requested
            (QuotaManager.getAvailableQuota cfg usage / QuotaManager.getOperationCost operation)) ∧
      ((operation = "search" ∨ operation = "channel_search") →
        QuotaManager.getOperationCost operation ≤ QuotaManager.getAvailableQuota cfg usage →
        QuotaManager.optimizeOperation cfg usage operation requested =
          if 100 * usage > 80 * cfg.dailyLimit then min requested 5 else requested) := by
  have havail : 0 ≤ QuotaManager.getAvailableQuota cfg usage := le_max_left 0 _
  refine ⟨?_, ?_, ?_⟩
  · intro hgt
    simp [QuotaManager.optimizeOperation, hgt]
  · intro hop
    by_cases hgt : QuotaManager.getOperationCost operation >
        QuotaManager.getAvailableQuota cfg usage
    · have hcost : QuotaManager.getOperationCost operation = 1 := by
        rcases hop with h | h <;> simp [QuotaManager.getOperationCost, h]
      have hzero : QuotaManager.getAvailableQuota cfg usage = 0 := by omega
      rcases hop with h | h <;>
        simp [QuotaManager.optimizeOperation, h, QuotaManager.getOperationCost, hzero,
          hcost] at hgt ⊢ <;> omega
    · rcases hop with h | h <;>
        simp [QuotaManager.optimizeOperation, h, not_lt.mp hgt, QuotaManager.getOperationCost] at hgt ⊢ <;>
        omega
  · intro hop hle
    have hne1 : operation ≠ "video_details" := by
      rcases hop with h | h <;> simp [h]
    have hne2 : operation ≠ "channel_details" := by
      rcases hop with h | h <;> simp [h]
    rcases hop with h | h <;>
      · subst h
        simp only [QuotaManager.optimizeOperation, QuotaManager.getOperationCost]
        rw [if_neg (by simp only [QuotaManager.getOperationCost] at hle; omega)]
        by_cases hpct : 100 * usage > 80 * cfg.dailyLimit <;> simp [hpct]

/-- Witness for C7: dailyLimit 8000, reserve 1000, usage 6500 (> 80% of the
daily limit, available 500), a search for 10 items is capped to 5. -/
theorem optimizeRequestSize_postcondition_witness :
    (0:Int) ≤ 10 ∧
      QuotaManager.optimizeOperation QuotaManager.exampleConfig 6500 "search" 10 = 5 := by
  refine ⟨by decide, ?_⟩
  have h := (optimizeRequestSize_postcondition QuotaManager.exampleConfig 6500 10
    "search" (by decide)).2.2 (Or.inl rfl) (by decide)
  rw [h, if_pos (by decide)]
  decide

namespace CacheManager

/-- Source `CacheEntry<T>` from `types.ts`: payload, creation time in milliseconds
(`Date.now()`), and time-to-live in seconds. -/
structure CacheEntry (T : Type) where
  data : T
  timestamp : Int
  ttl : Int
deriving DecidableEq, Repr

/-- The per-category TTLs of `CacheConfig` (seconds). -/
structure CacheTTLConfig where
  transcripts : Int
  videoDetails : Int
  searchResults : Int
  comments : Int

/-- The in-memory store backing `CacheManager` (the `memoryCache` map). -/
def Store (T : Type) : Type := String → Option (CacheEntry T)

/-- Source `isExpired(entry)`: `Date.now() - entry.timestamp > entry.ttl * 1000`. -/
def isExpired (now : Int) (e : CacheEntry T) : Bool :=
  now - e.timestamp > e.ttl * 1000

/-- Source `getDefaultTTL(key)`: prefix-dispatched category TTL with 1-hour default. -/
def getDefaultTTL (cfg : CacheTTLConfig) (key : String) : Int :=
  if key.startsWith "transcript:" then cfg.transcripts
  else if key.startsWith "video:" then cfg.videoDetails
  else if key.startsWith "search:" then cfg.searchResults
  else if key.startsWith "comments:" then cfg.comments
  else if key.startsWith "trending:" then cfg.searchResults
  else if key.startsWith "channel:" then cfg.videoDetails
  else 3600

/-- Source `get(key)` on the memory-cache path: returns the payload of a non-expired
entry; an expired entry is deleted and the call returns `null` (`none`).  The
result pairs the returned value with the store after the call. -/
def get (now : Int) (store : Store T) (key : String) : Option T × Store T :=
  match store key with
  | some e =>
      if isExpired now e then
        (none, fun k => if k = key then none else store k)
      else (some e.data, store)
  | none => (none, store)

/-- Source `set(key, data, ttl?)` on the memory-cache path: stores an entry created
now.  The source computes `ttl || this.getDefaultTTL(key)`, so an absent or
zero `ttl` falls back to the category default. -/
def set (cfg : CacheTTLConfig) (now : Int) (store : Store T) (key : String)
    (data : T) (ttl : Option Int) : Store T :=
  let ttlValue := match ttl with
    | some t => if t = 0 then getDefaultTTL cfg key else t
    | none => getDefaultTTL cfg key
  fun k => if k = key then some ⟨data, now, ttlValue⟩ else store k

end CacheManager

/-- C6: cache round-trip and expiry.  `set(f, v, ttl)` with `ttl > 0`
immediately followed by `get(f)` returns `v`; and a `get(f)` performed when
`now − createdAt > ttl` seconds (in milliseconds, as the code computes it)
returns absent and removes the expired entry, so expired data is never
served as a hit. -/
theorem cache_roundtrip_and_expiry {T : Type} (cfg : CacheManager.CacheTTLConfig)
    (now later : Int) (store : CacheManager.Store T) (key : String) (v : T)
    (ttl : Int) (httl : 0 < ttl) (e : CacheManager.CacheEntry T)
    (hentry : store key = some e) (hexp : later - e.timestamp > e.ttl * 1000) :
    (CacheManager.get now (CacheManager.set cfg now store key v (some ttl)) key).1 = some v ∧
      (CacheManager.get later store key).1 = none ∧
      (CacheManager.get later store key).2 key = none := by
  refine ⟨?_, ?_, ?_⟩
  · have hnz : ttl ≠ 0 := by omega
    simp only [CacheManager.get, CacheManager.set, if_pos rfl, hnz, if_neg hnz]
    rw [if_neg]
    simp [CacheManager.isExpired]
    nlinarith
  · simp [CacheManager.get, hentry, CacheManager.isExpired, hexp]
  · simp [CacheManager.get, hentry, CacheManager.isExpired, hexp]

/-- Witness for C6 at the spec scenario: key `search:abc`, value 7 stored at
t = 0 with TTL 1800 s; a fresh store read back immediately yields the value,
and a pre-existing entry read at t = 1801 s is absent and deleted. -/
theorem cache_roundtrip_and_expiry_witness :
    (CacheManager.get 0
        (CacheManager.set ⟨86400, 3600, 1800, 7200⟩ 0
          (fun k => if k = "search:abc" then some ⟨(7:Int), 0, 1800⟩ else none)
          "search:abc" (7:Int) (some 1800)) "search:abc").1 = some 7 ∧
      (CacheManager.get 1801000
        (fun k => if k = "search:abc" then some ⟨(7:Int), 0, 1800⟩ else none)
        "search:abc").1 = none ∧
      (CacheManager.get 1801000
        (fun k => if k = "search:abc" then some ⟨(7:Int), 0, 1800⟩ else none)
        "search:abc").2 "search:abc" = none :=
  cache_roundtrip_and_expiry ⟨86400, 3600, 1800, 7200⟩ 0 1801000
    (fun k => if k = "search:abc" then some ⟨(7:Int), 0, 1800⟩ else none)
    "search:abc" 7 1800 (by decide) ⟨(7:Int), 0, 1800⟩ (by decide) (by decide)

namespace RobustLLMService

/-- Source `LLMRequest` from `types.ts`.  Numeric fields are modelled over the
integers (every value the claims use is integral). -/
structure LLMRequest where
  prompt : String
  model : Option String
  maxTokens : Option Int
  temperature : Option Int
  responseFormat : Option String
deriving DecidableEq

/-- The value produced by `executeRequest`
(`Omit<LLMResponse, 'provider' | 'processingTime'>`), which is also exactly
what `generateWithFallback` stores in the cache. -/
structure PartialResponse where
  content : String
  tokensUsed : Int
  cost : Int
deriving DecidableEq

/-- Source `LLMResponse` from `types.ts`.  `processingTime` is optional here because
a cache-served response is spread from a cached object that has no
`processingTime` property. -/
structure LLMResponse where
  content : String
  provider : String
  tokensUsed : Int
  cost : Int
  processingTime : Option Int
deriving DecidableEq

/-- Source `LLMProvider` from `types.ts`, with the `rateLimit.currentUsage`
counters inlined. -/
structure ProviderState where
  name : String
  priority : Int
  rpm : Int
  tpm : Int
  currentRequests : Int
  currentTokens : Int
deriving DecidableEq

/-- The observable shape of a provider error: the fields
`isNonRetryableError` inspects (`status`, `code`, `type`). -/
structure ProviderError where
  status : Option Int
  code : Option String
  errType : Option String
deriving DecidableEq

/-- Source `isNonRetryableError(error)`: 400/401/403, context-length overflow, or an
invalid-request error aborts the fallback iteration. -/
def isNonRetryableError (e : ProviderError) : Bool :=
  e.status == some 400 || e.status == some 401 || e.status == some 403 ||
    e.code == some "context_length_exceeded" ||
    e.errType == some "invalid_request_error"

/-- Source `canUseProvider(provider, estimatedTokens)`. -/
def canUseProvider (p : ProviderState) (estimatedTokens : Int) : Bool :=
  p.currentTokens + estimatedTokens ≤ p.tpm && p.currentRequests < p.rpm

/-- Source `exponentialBackoff(attempt)`:
`Math.min(1000 * Math.pow(2, attempt - 1), 30000)` milliseconds. -/
def backoffDelay (attempt : Nat) : Int :=
  min (1000 * 2 ^ (attempt - 1)) 30000

/-- The errors `generateWithFallback` can throw: a per-user quota denial from
`checkUserQuota`, or the terminal `AggregateError` carrying every recorded
per-provider failure. -/
inductive GenError where
  | userDailyQuotaExceeded
  | userHourlyQuotaExceeded
  | allProvidersFailed (errors : List (String × ProviderError))
deriving DecidableEq

/-- Source `checkUserQuota(userId, estimatedTokens)`: the per-caller guard, checked
against the 50,000/day and 10,000/hour ceilings; absent callers count as
`{daily: 0, hourly: 0}`.  The quota map pairs are (daily, hourly). -/
def checkUserQuota (quotas : String → Option (Int × Int)) (userId : String)
    (estimatedTokens : Int) : Option GenError :=
  let u := (quotas userId).getD (0, 0)
  if u.1 + estimatedTokens > 50000 then some .userDailyQuotaExceeded
  else if u.2 + estimatedTokens > 10000 then some .userHourlyQuotaExceeded
  else none

/-- The mutable state `generateWithFallback` touches: the provider rate
counters, the per-user quota map, and the shared response cache. -/
structure BrokerState where
  providers : List ProviderState
  userQuotas : String → Option (Int × Int)
  cache : CacheManager.Store PartialResponse

/-- Source `recordUsage(provider, tokensUsed, userId)`: bumps the serving provider's
counters and the caller's daily and hourly token totals. -/
def recordUsage (st : BrokerState) (pname : String) (tokensUsed : Int)
    (userId : String) : BrokerState :=
  { st with
    providers := st.providers.map fun q =>
      if q.name = pname then
        { q with currentTokens := q.currentTokens + tokensUsed,
                 currentRequests := q.currentRequests + 1 }
      else q
    userQuotas := fun u =>
      if u = userId then
        some (((st.userQuotas userId).getD (0, 0)).1 + tokensUsed,
              ((st.userQuotas userId).getD (0, 0)).2 + tokensUsed)
      else st.userQuotas u }

/-- JSON string literal for the escape-free ASCII strings used as cache-key
material (`JSON.stringify` adds no escapes for them). -/
def jsonString (s : String) : String := "\"" ++ s ++ "\""

/-- The `JSON.stringify({prompt, model, maxTokens, temperature,
responseFormat, provider})` payload of `createCacheKey`: keys in insertion
order, fields holding `undefined` omitted. -/
def requestKeyJson (r : LLMRequest) (provider : String) : String :=
  let fields :=
    ["\"prompt\":" ++ jsonString r.prompt] ++
    (match r.model with | some m => ["\"model\":" ++ jsonString m] | none => []) ++
    (match r.maxTokens with | some n => ["\"maxTokens\":" ++ toString n] | none => []) ++
    (match r.temperature with | some t => ["\"temperature\":" ++ toString t] | none => []) ++
    (match r.responseFormat with | some f => ["\"responseFormat\":" ++ jsonString f] | none => []) ++
    ["\"provider\":" ++ jsonString provider]
  "\x7b" ++ String.intercalate "," fields ++ "\x7d"

/-- The standard base64 alphabet used by `Buffer.toString('base64')`. -/
def base64Alphabet : List Char :=
  "ABCDEFGHIJKLMNOPQRSTUVWXYZabcdefghijklmnopqrstuvwxyz0123456789+/".toList

def base64Digit (n : Nat) : Char := base64Alphabet.getD n 'A'

/-- Base64 encoding of a byte list (RFC 4648, with padding), as produced by
`Buffer.from(key).toString('base64')`. -/
def base64Encode : List Nat → List Char
  | [] => []
  | [b1] => [base64Digit (b1 / 4), base64Digit (b1 % 4 * 16), '=', '=']
  | [b1, b2] => [base64Digit (b1 / 4), base64Digit (b1 % 4 * 16 + b2 / 16),
      base64Digit (b2 % 16 * 4), '=']
  | b1 :: b2 :: b3 :: rest =>
      base64Digit (b1 / 4) :: base64Digit (b1 % 4 * 16 + b2 / 16) ::
      base64Digit (b2 % 16 * 4 + b3 / 64) :: base64Digit (b3 % 64) ::
      base64Encode rest

/-- UTF-8 bytes of the ASCII key material (code points coincide with bytes). -/
def stringBytes (s : String) : List Nat := s.toList.map Char.toNat

/-- Source `createCacheKey(request, provider)`: `llm:` followed by the first 50
characters of the base64 encoding of the request JSON. -/
def createCacheKey (r : LLMRequest) (provider : String) : String :=
  let key := requestKeyJson r provider
  "llm:" ++ String.mk ((base64Encode (stringBytes key)).take 50)

/-- Observable events of one `generateWithFallback` run, in program order. -/
inductive BrokerEvent where
  | rateCheck (provider : String) (admitted : Bool)
  | cacheLookup (key : String) (hit : Bool)
  | exec (provider : String)
  | fail (provider : String) (retryable : Bool)
  | recordUse (provider : String) (tokens : Int)
  | cacheWrite (key : String)
  | backoff (delayMs : Int)
deriving DecidableEq

/-- Result, final state and event trace of a `generateWithFallback` run. -/
structure GenOutcome where
  result : Except GenError LLMResponse
  state : BrokerState
  trace : List BrokerEvent

/-- Stable insertion of a provider into a priority-sorted list, after all
entries of lower-or-equal priority. -/
def insertByPriority (p : ProviderState) : List ProviderState → List ProviderState
  | [] => [p]
  | q :: qs => if p.priority < q.priority then p :: q :: qs else q :: insertByPriority p qs

/-- Source `providers.sort((a, b) => a.priority - b.priority)`: stable ascending
sort by priority. -/
def sortByPriority (ps : List ProviderState) : List ProviderState :=
  ps.foldl (fun acc p => insertByPriority p acc) []

/-- The provider loop of `generateWithFallback`.  The provider behaviour
(`executeRequest`, an external network call) is an oracle from provider name
to outcome; `now` is the fixed `Date.now()` instant of the run, so the
success path's `processingTime` elapses zero. -/
def runProviders (oracle : String → Except ProviderError PartialResponse)
    (ttlConfig : CacheManager.CacheTTLConfig) (req : LLMRequest) (userId : String)
    (now estimatedTokens : Int) :
    List ProviderState → BrokerState → List (String × ProviderError) → GenOutcome
  | [], st, errors => ⟨.error (.allProvidersFailed errors), st, []⟩
  | p :: rest, st, errors =>
    if canUseProvider p estimatedTokens then
      let cacheKey := createCacheKey req p.name
      match CacheManager.get now st.cache cacheKey with
      | (some cached, cache1) =>
          ⟨.ok { content := cached.content, provider := p.name,
                 tokensUsed := cached.tokensUsed, cost := cached.cost,
                 processingTime := none },
           { st with cache := cache1 },
           [.rateCheck p.name true, .cacheLookup cacheKey true]⟩
      | (none, cache1) =>
          let st1 : BrokerState := { st with cache := cache1 }
          match oracle p.name with
          | .ok resp =>
              let st2 := recordUsage st1 p.name resp.tokensUsed userId
              let st3 : BrokerState :=
                { st2 with cache := CacheManager.set ttlConfig now st2.cache cacheKey resp (some 3600) }
              ⟨.ok { content := resp.content, provider := p.name,
                     tokensUsed := resp.tokensUsed, cost := resp.cost,
                     processingTime := some (now - now) },
               st3,
               [.rateCheck p.name true, .cacheLookup cacheKey false, .exec p.name,
                .recordUse p.name resp.tokensUsed, .cacheWrite cacheKey]⟩
          | .error e =>
              let errors1 := errors ++ [(p.name, e)]
              if isNonRetryableError e then
                ⟨.error (.allProvidersFailed errors1), st1,
                 [.rateCheck p.name true, .cacheLookup cacheKey false,
                  .exec p.name, .fail p.name false]⟩
              else
                let out := runProviders oracle ttlConfig req userId now estimatedTokens rest st1 errors1
                ⟨out.result, out.state,
                 [.rateCheck p.name true, .cacheLookup cacheKey false, .exec p.name,
                  .fail p.name true, .backoff (backoffDelay errors1.length)] ++ out.trace⟩
    else
      let out := runProviders oracle ttlConfig req userId now estimatedTokens rest st errors
      ⟨out.result, out.state, .rateCheck p.name false :: out.trace⟩

/-- Source `generateWithFallback(request, userId)`: per-caller quota guard, then the
provider loop over the priority-sorted provider list. -/
def generateWithFallback (oracle : String → Except ProviderError PartialResponse)
    (estimate : String → Int) (ttlConfig : CacheManager.CacheTTLConfig)
    (req : LLMRequest) (userId : String) (now : Int) (st : BrokerState) : GenOutcome :=
  let estimatedTokens := estimate req.prompt
  match checkUserQuota st.userQuotas userId estimatedTokens with
  | some e => ⟨.error e, st, []⟩
  | none => runProviders oracle ttlConfig req userId now estimatedTokens
      (sortByPriority st.providers) st []

/-- Providers named by `exec` events of a trace, in order. -/
def execedProviders (tr : List BrokerEvent) : List String :=
  tr.filterMap fun ev => match ev with | .exec s => some s | _ => none

/-- Usage recordings of a trace, in order. -/
def recordedUses (tr : List BrokerEvent) : List (String × Int) :=
  tr.filterMap fun ev => match ev with | .recordUse s t => some (s, t) | _ => none

/-- Cache writes of a trace, in order. -/
def cacheWrites (tr : List BrokerEvent) : List String :=
  tr.filterMap fun ev => match ev with | .cacheWrite k => some k | _ => none

/-- Backoff delays of a trace, in order. -/
def backoffDelays (tr : List BrokerEvent) : List Int :=
  tr.filterMap fun ev => match ev with | .backoff d => some d | _ => none

/-- Number of retryable provider failures recorded in a trace. -/
def retryableFailCount (tr : List BrokerEvent) : Nat :=
  tr.countP fun ev => match ev with | .fail _ true => true | _ => false

/-- The error list of a raised `AggregateError`, if the run ended that way. -/
def raisedErrors : Except GenError LLMResponse → Option (List (String × ProviderError))
  | .error (.allProvidersFailed es) => some es
  | _ => none

/-- Whether the run ended in a thrown error. -/
def isErrorResult : Except GenError LLMResponse → Bool
  | .error _ => true
  | .ok _ => false

/-- The content of a successful result. -/
def resultContent : Except GenError LLMResponse → Option String
  | .ok r => some r.content
  | .error _ => none

end RobustLLMService

/-- Requests used to exhibit the cache-key collision: identical long prompt,
different `maxTokens`. -/
def collisionRequestA : RobustLLMService.LLMRequest :=
  { prompt := "Summarize the following video transcript"
    model := some "gpt-4o-mini", maxTokens := some 1000, temperature := some 0
    responseFormat := some "json" }

def collisionRequestB : RobustLLMService.LLMRequest :=
  { prompt := "Summarize the following video transcript"
    model := some "gpt-4o-mini", maxTokens := some 2000, temperature := some 0
    responseFormat := some "json" }

/-- C10: the cache key — `llm:` plus the base64 of the request JSON truncated
to its first 50 characters — is not injective: two requests that differ in
`maxTokens` (1000 vs 2000), a semantically relevant generation parameter,
receive the same key, because the truncation retains only the first 38 bytes
of the JSON, all inside the shared prompt.  One request can therefore be
served the other's cached result. -/
theorem cacheKey_not_injective :
    collisionRequestA ≠ collisionRequestB ∧
      collisionRequestA.maxTokens ≠ collisionRequestB.maxTokens ∧
      RobustLLMService.createCacheKey collisionRequestA "openai" =
        RobustLLMService.createCacheKey collisionRequestB "openai" := by
  refine ⟨by decide, by decide, by decide⟩

/-- C5: per-caller ceiling.  If the caller's recorded hourly usage plus the
request's estimated cost exceeds 10,000, or the daily usage plus the estimate
exceeds 50,000, `generateWithFallback` fails with the corresponding user-quota
error, leaves the state untouched, and produces an empty event trace — so no
provider is contacted and no cache or rate-tracker interaction happens,
regardless of the provider (global budget) state. -/
theorem per_caller_ceiling (oracle : String → Except RobustLLMService.ProviderError
      RobustLLMService.PartialResponse)
    (estimate : String → Int) (ttlConfig : CacheManager.CacheTTLConfig)
    (req : RobustLLMService.LLMRequest) (userId : String) (now : Int)
    (st : RobustLLMService.BrokerState)
    (h : ((st.userQuotas userId).getD (0, 0)).2 + estimate req.prompt > 10000 ∨
         ((st.userQuotas userId).getD (0, 0)).1 + estimate req.prompt > 50000) :
    RobustLLMService.generateWithFallback oracle estimate ttlConfig req userId now st =
        ⟨.error .userDailyQuotaExceeded, st, []⟩ ∨
      RobustLLMService.generateWithFallback oracle estimate ttlConfig req userId now st =
        ⟨.error .userHourlyQuotaExceeded, st, []⟩ := by
  by_cases hd : ((st.userQuotas userId).getD (0, 0)).1 + estimate req.prompt > 50000
  · left
    have hc : RobustLLMService.checkUserQuota st.userQuotas userId (estimate req.prompt) =
        some .userDailyQuotaExceeded := by
      simp only [RobustLLMService.checkUserQuota]
      rw [if_pos hd]
    simp only [RobustLLMService.generateWithFallback]
    rw [hc]
  · right
    have hh : ((st.userQuotas userId).getD (0, 0)).2 + estimate req.prompt > 10000 :=
      h.resolve_right hd
    have hc : RobustLLMService.checkUserQuota st.userQuotas userId (estimate req.prompt) =
        some .userHourlyQuotaExceeded := by
      simp only [RobustLLMService.checkUserQuota]
      rw [if_neg hd, if_pos hh]
    simp only [RobustLLMService.generateWithFallback]
    rw [hc]

/-- Witness for C5: a caller with 9,950 hourly tokens already recorded and an
estimate of 100 is denied with the hourly quota error. -/
theorem per_caller_ceiling_witness :
    ((((9000:Int), (9950:Int)) : Int × Int).2 + 100 > 10000 ∨
        (((9000:Int), (9950:Int)) : Int × Int).1 + 100 > 50000) ∧
      (RobustLLMService.generateWithFallback (fun _ => .error ⟨some 500, none, none⟩)
          (fun _ => 100) ⟨86400, 3600, 1800, 7200⟩
          ⟨"p", none, none, none, none⟩ "alice" 0
          ⟨[], fun u => if u = "alice" then some (9000, 9950) else none, fun _ => none⟩ =
          ⟨.error .userDailyQuotaExceeded,
           ⟨[], fun u => if u = "alice" then some (9000, 9950) else none, fun _ => none⟩, []⟩ ∨
        RobustLLMService.generateWithFallback (fun _ => .error ⟨some 500, none, none⟩)
          (fun _ => 100) ⟨86400, 3600, 1800, 7200⟩
          ⟨"p", none, none, none, none⟩ "alice" 0
          ⟨[], fun u => if u = "alice" then some (9000, 9950) else none, fun _ => none⟩ =
          ⟨.error .userHourlyQuotaExceeded,
           ⟨[], fun u => if u = "alice" then some (9000, 9950) else none, fun _ => none⟩, []⟩) := by
  constructor
  · left
    decide
  · exact per_caller_ceiling (fun _ => .error ⟨some 500, none, none⟩) (fun _ => 100)
      ⟨86400, 3600, 1800, 7200⟩ ⟨"p", none, none, none, none⟩ "alice" 0
      ⟨[], fun u => if u = "alice" then some (9000, 9950) else none, fun _ => none⟩
      (by left; simp)

namespace RobustLLMService

theorem runProviders_nil (oracle : String → Except ProviderError PartialResponse)
    (ttlConfig : CacheManager.CacheTTLConfig) (req : LLMRequest) (userId : String)
    (now est : Int) (st : BrokerState) (errors : List (String × ProviderError)) :
    runProviders oracle ttlConfig req userId now est [] st errors =
      ⟨.error (.allProvidersFailed errors), st, []⟩ := rfl

theorem runProviders_skip (oracle : String → Except ProviderError PartialResponse)
    (ttlConfig : CacheManager.CacheTTLConfig) (req : LLMRequest) (userId : String)
    (now est : Int) (p : ProviderState) (rest : List ProviderState)
    (st : BrokerState) (errors : List (String × ProviderError))
    (hcan : canUseProvider p est = false) :
    runProviders oracle ttlConfig req userId now est (p :: rest) st errors =
      ⟨(runProviders oracle ttlConfig req userId now est rest st errors).result,
       (runProviders oracle ttlConfig req userId now est rest st errors).state,
       .rateCheck p.name false ::
         (runProviders oracle ttlConfig req userId now est rest st errors).trace⟩ := by
  simp only [runProviders, hcan]
  rfl

theorem runProviders_cacheHit (oracle : String → Except ProviderError PartialResponse)
    (ttlConfig : CacheManager.CacheTTLConfig) (req : LLMRequest) (userId : String)
    (now est : Int) (p : ProviderState) (rest : List ProviderState)
    (st : BrokerState) (errors : List (String × ProviderError))
    (cached : PartialResponse) (cache1 : CacheManager.Store PartialResponse)
    (hcan : canUseProvider p est = true)
    (hget : CacheManager.get now st.cache (createCacheKey req p.name) = (some cached, cache1)) :
    runProviders oracle ttlConfig req userId now est (p :: rest) st errors =
      ⟨.ok { content := cached.content, provider := p.name,
             tokensUsed := cached.tokensUsed, cost := cached.cost, processingTime := none },
       { st with cache := cache1 },
       [.rateCheck p.name true, .cacheLookup (createCacheKey req p.name) true]⟩ := by
  simp only [runProviders, hcan, hget]
  rw [if_pos trivial]

theorem runProviders_success (oracle : String → Except ProviderError PartialResponse)
    (ttlConfig : CacheManager.CacheTTLConfig) (req : LLMRequest) (userId : String)
    (now est : Int) (p : ProviderState) (rest : List ProviderState)
    (st : BrokerState) (errors : List (String × ProviderError))
    (cache1 : CacheManager.Store PartialResponse) (resp : PartialResponse)
    (hcan : canUseProvider p est = true)
    (hget : CacheManager.get now st.cache (createCacheKey req p.name) = (none, cache1))
    (hok : oracle p.name = .ok resp) :
    runProviders oracle ttlConfig req userId now est (p :: rest) st errors =
      ⟨.ok { content := resp.content, provider := p.name, tokensUsed := resp.tokensUsed,
             cost := resp.cost, processingTime := some (now - now) },
       { recordUsage { st with cache := cache1 } p.name resp.tokensUsed userId with
         cache := CacheManager.set ttlConfig now
           (recordUsage { st with cache := cache1 } p.name resp.tokensUsed userId).cache
           (createCacheKey req p.name) resp (some 3600) },
       [.rateCheck p.name true, .cacheLookup (createCacheKey req p.name) false, .exec p.name,
        .recordUse p.name resp.tokensUsed, .cacheWrite (createCacheKey req p.name)]⟩ := by
  simp only [runProviders, hcan, hget, hok]
  rw [if_pos trivial]

theorem runProviders_fatal (oracle : String → Except ProviderError PartialResponse)
    (ttlConfig : CacheManager.CacheTTLConfig) (req : LLMRequest) (userId : String)
    (now est : Int) (p : ProviderState) (rest : List ProviderState)
    (st : BrokerState) (errors : List (String × ProviderError))
    (cache1 : CacheManager.Store PartialResponse) (e : ProviderError)
    (hcan : canUseProvider p est = true)
    (hget : CacheManager.get now st.cache (createCacheKey req p.name) = (none, cache1))
    (herr : oracle p.name = .error e) (hnr : isNonRetryableError e = true) :
    runProviders oracle ttlConfig req userId now est (p :: rest) st errors =
      ⟨.error (.allProvidersFailed (errors ++ [(p.name, e)])),
       { st with cache := cache1 },
       [.rateCheck p.name true, .cacheLookup (createCacheKey req p.name) false,
        .exec p.name, .fail p.name false]⟩ := by
  simp only [runProviders, hcan, hget, herr, hnr]
  rfl

theorem runProviders_retry (oracle : String → Except ProviderError PartialResponse)
    (ttlConfig : CacheManager.CacheTTLConfig) (req : LLMRequest) (userId : String)
    (now est : Int) (p : ProviderState) (rest : List ProviderState)
    (st : BrokerState) (errors : List (String × ProviderError))
    (cache1 : CacheManager.Store PartialResponse) (e : ProviderError)
    (hcan : canUseProvider p est = true)
    (hget : CacheManager.get now st.cache (createCacheKey req p.name) = (none, cache1))
    (herr : oracle p.name = .error e) (hnr : isNonRetryableError e = false) :
    runProviders oracle ttlConfig req userId now est (p :: rest) st errors =
      ⟨(runProviders oracle ttlConfig req userId now est rest { st with cache := cache1 }
          (errors ++ [(p.name, e)])).result,
       (runProviders oracle ttlConfig req userId now est rest { st with cache := cache1 }
          (errors ++ [(p.name, e)])).state,
       [.rateCheck p.name true, .cacheLookup (createCacheKey req p.name) false, .exec p.name,
        .fail p.name true, .backoff (backoffDelay (errors ++ [(p.name, e)]).length)] ++
         (runProviders oracle ttlConfig req userId now est rest { st with cache := cache1 }
            (errors ++ [(p.name, e)])).trace⟩ := by
  simp only [runProviders, hcan, hget, herr, hnr]
  rfl

end RobustLLMService

namespace RobustLLMService

/-- The backoff delays emitted by the provider loop, started with `errors`
already recorded, are `min(1000·2^i, 30000)` for consecutive attempt indices
`i = errors.length, errors.length + 1, …`, one per retryable failure. -/
theorem backoffDelays_runProviders (oracle : String → Except ProviderError PartialResponse)
    (ttlConfig : CacheManager.CacheTTLConfig) (req : LLMRequest) (userId : String)
    (now est : Int) :
    ∀ (ps : List ProviderState) (st : BrokerState) (errors : List (String × ProviderError)),
      backoffDelays (runProviders oracle ttlConfig req userId now est ps st errors).trace =
        (List.range' errors.length
            (retryableFailCount
              (runProviders oracle ttlConfig req userId now est ps st errors).trace)).map
          (fun i => min (1000 * 2 ^ i) (30000:Int)) := by
  intro ps
  induction ps with
  | nil =>
      intro st errors
      simp [runProviders_nil, backoffDelays, retryableFailCount]
  | cons p rest ih =>
      intro st errors
      by_cases hcan : canUseProvider p est = true
      · rcases hget : CacheManager.get now st.cache (createCacheKey req p.name) with ⟨ov, c1⟩
        cases ov with
        | some cached =>
            rw [runProviders_cacheHit oracle ttlConfig req userId now est p rest st errors
              cached c1 hcan hget]
            simp [backoffDelays, retryableFailCount]
        | none =>
            rcases horacle : oracle p.name with e | resp
            · by_cases hnr : isNonRetryableError e = true
              · rw [runProviders_fatal oracle ttlConfig req userId now est p rest st errors
                  c1 e hcan hget horacle hnr]
                simp [backoffDelays, retryableFailCount]
              · have hnr2 : isNonRetryableError e = false := by
                  simpa using hnr
                rw [runProviders_retry oracle ttlConfig req userId now est p rest st errors
                  c1 e hcan hget horacle hnr2]
                have hrec := ih { st with cache := c1 } (errors ++ [(p.name, e)])
                have hlen : (errors ++ [(p.name, e)]).length = errors.length + 1 := by simp
                rw [hlen] at hrec
                simp only [backoffDelays, retryableFailCount, List.filterMap_append,
                  List.countP_append, List.filterMap_cons, List.filterMap_nil,
                  List.countP_cons, List.countP_nil] at hrec ⊢
                rw [hrec, hlen]
                have hcomm : ∀ c : Nat,
                    (((((0 + if (false = true) then 1 else 0) + if True then 1 else 0) +
                      if (false = true) then 1 else 0) + if (false = true) then 1 else 0) +
                      if (false = true) then 1 else 0) + c = c + 1 := by
                  intro c
                  simp [Nat.add_comm]
                rw [hcomm, List.range'_succ, List.map_cons]
                simp [backoffDelay]
            · rw [runProviders_success oracle ttlConfig req userId now est p rest st errors
                c1 resp hcan hget horacle]
              simp [backoffDelays, retryableFailCount]
      · have hcan2 : canUseProvider p est = false := by
          simpa using hcan
        rw [runProviders_skip oracle ttlConfig req userId now est p rest st errors hcan2]
        have hrec := ih st errors
        simp only [backoffDelays, retryableFailCount, List.filterMap_cons, List.countP_cons] at hrec ⊢
        simpa using hrec

end RobustLLMService

/-- C9: backoff schedule.  In every `generateWithFallback` run the list of
backoff delays, in order, is `min(1000·2^i, 30000)` for `i = 0, 1, …`, with
exactly one delay per retryable provider failure: after the n-th retryable
failure of the request (n ≥ 1, index `i = n − 1`) the loop waits
`min(1000·2^(n−1), 30000)` milliseconds before the next provider attempt. -/
theorem backoff_schedule (oracle : String → Except RobustLLMService.ProviderError
      RobustLLMService.PartialResponse)
    (estimate : String → Int) (ttlConfig : CacheManager.CacheTTLConfig)
    (req : RobustLLMService.LLMRequest) (userId : String) (now : Int)
    (st : RobustLLMService.BrokerState) :
    RobustLLMService.backoffDelays
        (RobustLLMService.generateWithFallback oracle estimate ttlConfig req userId now st).trace =
      (List.range (RobustLLMService.retryableFailCount
          (RobustLLMService.generateWithFallback oracle estimate ttlConfig req userId
            now st).trace)).map
        (fun i => min (1000 * 2 ^ i) (30000:Int)) := by
  simp only [RobustLLMService.generateWithFallback]
  rcases hq : RobustLLMService.checkUserQuota st.userQuotas userId (estimate req.prompt) with _ | e
  · rw [List.range_eq_range']
    simpa using RobustLLMService.backoffDelays_runProviders oracle ttlConfig req userId now
      (estimate req.prompt) (RobustLLMService.sortByPriority st.providers) st []
  · simp [RobustLLMService.backoffDelays, RobustLLMService.retryableFailCount]

namespace RobustLLMService

/-- Providers that fail their rate-limit check are skipped without touching
the state, each contributing only a failed rate-check event. -/
theorem runProviders_skipAll (oracle : String → Except ProviderError PartialResponse)
    (ttlConfig : CacheManager.CacheTTLConfig) (req : LLMRequest) (userId : String)
    (now est : Int) :
    ∀ (pre ps : List ProviderState) (st : BrokerState) (errors : List (String × ProviderError)),
      pre.all (fun q => !canUseProvider q est) = true →
      runProviders oracle ttlConfig req userId now est (pre ++ ps) st errors =
        ⟨(runProviders oracle ttlConfig req userId now est ps st errors).result,
         (runProviders oracle ttlConfig req userId now est ps st errors).state,
         pre.map (fun q => .rateCheck q.name false) ++
           (runProviders oracle ttlConfig req userId now est ps st errors).trace⟩ := by
  intro pre
  induction pre with
  | nil => intro ps st errors _; simp
  | cons q pre2 ih =>
      intro ps st errors hall
      rw [List.all_cons, Bool.and_eq_true] at hall
      have hq : canUseProvider q est = false := by
        simpa using hall.1
      rw [List.cons_append, runProviders_skip oracle ttlConfig req userId now est q
        (pre2 ++ ps) st errors hq, ih ps st errors hall.2]
      simp

end RobustLLMService

/-- C2 (amended): the broker checks the cache inside the provider loop,
after the per-provider rate-limit check, under a fingerprint that includes
the provider name.  If the first provider passing its rate-limit check has a
valid non-expired cache entry for the request's fingerprint with that
provider, the cached result is returned tagged with that provider, and no
provider execution, usage recording, or cache write happens for that
request; the rate-limit checks up to and including that provider do happen
before the cache lookup. -/
theorem cache_hit_short_circuits (oracle : String → Except RobustLLMService.ProviderError
      RobustLLMService.PartialResponse)
    (estimate : String → Int) (ttlConfig : CacheManager.CacheTTLConfig)
    (req : RobustLLMService.LLMRequest) (userId : String) (now : Int)
    (st : RobustLLMService.BrokerState) (pre : List RobustLLMService.ProviderState)
    (p : RobustLLMService.ProviderState) (rest : List RobustLLMService.ProviderState)
    (cached : RobustLLMService.PartialResponse)
    (cache1 : CacheManager.Store RobustLLMService.PartialResponse)
    (hquota : RobustLLMService.checkUserQuota st.userQuotas userId (estimate req.prompt) = none)
    (hsorted : RobustLLMService.sortByPriority st.providers = pre ++ p :: rest)
    (hpre : pre.all (fun q => !RobustLLMService.canUseProvider q (estimate req.prompt)) = true)
    (hcan : RobustLLMService.canUseProvider p (estimate req.prompt) = true)
    (hhit : CacheManager.get now st.cache (RobustLLMService.createCacheKey req p.name) =
      (some cached, cache1)) :
    (RobustLLMService.generateWithFallback oracle estimate ttlConfig req userId now st).result =
        .ok { content := cached.content, provider := p.name, tokensUsed := cached.tokensUsed,
              cost := cached.cost, processingTime := none } ∧
      RobustLLMService.execedProviders
        (RobustLLMService.generateWithFallback oracle estimate ttlConfig req userId now st).trace = [] ∧
      RobustLLMService.recordedUses
        (RobustLLMService.generateWithFallback oracle estimate ttlConfig req userId now st).trace = [] ∧
      RobustLLMService.cacheWrites
        (RobustLLMService.generateWithFallback oracle estimate ttlConfig req userId now st).trace = [] ∧
      (RobustLLMService.generateWithFallback oracle estimate ttlConfig req userId now st).state =
        { st with cache := cache1 } := by
  have hgen : RobustLLMService.generateWithFallback oracle estimate ttlConfig req userId now st =
      RobustLLMService.runProviders oracle ttlConfig req userId now (estimate req.prompt)
        (RobustLLMService.sortByPriority st.providers) st [] := by
    simp only [RobustLLMService.generateWithFallback]
    rw [hquota]
  rw [hgen, hsorted,
    RobustLLMService.runProviders_skipAll oracle ttlConfig req userId now
      (estimate req.prompt) pre (p :: rest) st [] hpre,
    RobustLLMService.runProviders_cacheHit oracle ttlConfig req userId now
      (estimate req.prompt) p rest st [] cached cache1 hcan hhit]
  refine ⟨rfl, ?_, ?_, ?_, rfl⟩ <;>
    · simp only [RobustLLMService.execedProviders, RobustLLMService.recordedUses,
        RobustLLMService.cacheWrites, List.filterMap_append, List.filterMap_map,
        List.filterMap_cons, List.filterMap_nil, List.append_nil]
      exact List.filterMap_eq_nil_iff.mpr (fun a _ => rfl)

/-- TTL configuration used in the concrete broker scenarios (the documented
defaults: 24h transcripts, 1h details, 30min search, 2h comments). -/
def brokerTTLConfig : CacheManager.CacheTTLConfig := ⟨86400, 3600, 1800, 7200⟩

/-- A minimal request used by the concrete broker scenarios. -/
def probeRequest : RobustLLMService.LLMRequest := ⟨"p", none, none, none, none⟩

/-- The two providers `initializeProviders` configures, with fresh counters. -/
def openaiProvider : RobustLLMService.ProviderState := ⟨"openai", 1, 3500, 200000, 0, 0⟩

def anthropicProvider : RobustLLMService.ProviderState := ⟨"anthropic", 2, 2000, 150000, 0, 0⟩

/-- The openai provider with its request counter at the rpm limit, so that
`canUseProvider` rejects it. -/
def openaiExhausted : RobustLLMService.ProviderState := ⟨"openai", 1, 3500, 200000, 3500, 0⟩

/-- A cache holding one fresh (timestamp 0, ttl 3600 s) entry under the
openai fingerprint of `probeRequest`. -/
def hitCache : CacheManager.Store RobustLLMService.PartialResponse :=
  fun k => if k = RobustLLMService.createCacheKey probeRequest "openai" then
    some ⟨⟨"cached", 5, 0⟩, 0, 3600⟩ else none

/-- Scenario A: openai admissible, valid cached entry under its key. -/
def hitState : RobustLLMService.BrokerState := ⟨[openaiProvider], fun _ => none, hitCache⟩

/-- An oracle whose providers all fail with a retryable server error. -/
def failingOracle : String → Except RobustLLMService.ProviderError
    RobustLLMService.PartialResponse :=
  fun _ => .error ⟨some 500, none, none⟩

def hitOutcome : RobustLLMService.GenOutcome :=
  RobustLLMService.generateWithFallback failingOracle (fun _ => 100) brokerTTLConfig
    probeRequest "default" 0 hitState

/-- Scenario B: the same valid cached entry, but openai is rate-limited;
anthropic serves fresh content. -/
def skipState : RobustLLMService.BrokerState :=
  ⟨[openaiExhausted, anthropicProvider], fun _ => none, hitCache⟩

/-- An oracle where anthropic succeeds and anything else fails retryably. -/
def anthropicOkOracle : String → Except RobustLLMService.ProviderError
    RobustLLMService.PartialResponse :=
  fun n => if n = "anthropic" then .ok ⟨"fresh", 10, 0⟩ else .error ⟨some 500, none, none⟩

def skipOutcome : RobustLLMService.GenOutcome :=
  RobustLLMService.generateWithFallback anthropicOkOracle (fun _ => 100) brokerTTLConfig
    probeRequest "default" 0 skipState

/-- Counterexample for C2 as stated.  Scenario A: a valid non-expired cache
entry exists for the request's fingerprint and is served, yet a provider
rate-limit check (`canUseProvider`) did happen for the request, contradicting
"no provider rate-limit check … happens".  Scenario B: the same valid entry
exists, but because its fingerprint belongs to the rate-limited openai
provider, the cached result is not returned: anthropic is executed and its
usage recorded. -/
theorem cache_check_precedes_counterexample :
    (CacheManager.get 0 hitState.cache
        (RobustLLMService.createCacheKey probeRequest "openai")).1 = some ⟨"cached", 5, 0⟩ ∧
      RobustLLMService.BrokerEvent.rateCheck "openai" true ∈ hitOutcome.trace ∧
      (CacheManager.get 0 skipState.cache
        (RobustLLMService.createCacheKey probeRequest "openai")).1 = some ⟨"cached", 5, 0⟩ ∧
      RobustLLMService.resultContent skipOutcome.result = some "fresh" ∧
      RobustLLMService.execedProviders skipOutcome.trace = ["anthropic"] ∧
      RobustLLMService.recordedUses skipOutcome.trace = [("anthropic", 10)] := by
  refine ⟨by decide, by decide, by decide, by decide, by decide, by decide⟩

/-- Witness for the amended C2, instantiated at scenario A: the first (and
only) rate-admissible provider openai has a valid cached entry, which is
returned tagged `openai` with no execution, usage recording or cache write. -/
theorem cache_hit_short_circuits_witness :
    hitOutcome.result = .ok ⟨"cached", "openai", 5, 0, none⟩ ∧
      RobustLLMService.execedProviders hitOutcome.trace = [] ∧
      RobustLLMService.recordedUses hitOutcome.trace = [] ∧
      RobustLLMService.cacheWrites hitOutcome.trace = [] ∧
      hitOutcome.state = { hitState with cache := hitCache } := by
  exact cache_hit_short_circuits failingOracle (fun _ => 100) brokerTTLConfig probeRequest
    "default" 0 hitState [] openaiProvider [] ⟨"cached", 5, 0⟩ hitCache
    rfl rfl rfl (by decide) rfl

namespace CacheManager

/-- Store `c1` differs from `c` at most by deleted entries. -/
def storeLe {T : Type} (c1 c : Store T) : Prop :=
  ∀ k, c1 k = c k ∨ c1 k = none

theorem storeLe_refl {T : Type} (c : Store T) : storeLe c c :=
  fun _ => Or.inl rfl

theorem storeLe_trans {T : Type} {a b c : Store T} (h1 : storeLe a b) (h2 : storeLe b c) :
    storeLe a c := by
  intro k
  rcases h1 k with h | h
  · rw [h]
    exact h2 k
  · exact Or.inr h

/-- Store `c1` differs from `c` at most by deletion of entries that were expired
at instant `now`. -/
def evictOnly {T : Type} (now : Int) (c1 c : Store T) : Prop :=
  ∀ k, c1 k = c k ∨ (c1 k = none ∧ ∃ e, c k = some e ∧ isExpired now e = true)

theorem evictOnly_refl {T : Type} (now : Int) (c : Store T) : evictOnly now c c :=
  fun _ => Or.inl rfl

theorem evictOnly_trans {T : Type} {now : Int} {a b c : Store T}
    (h1 : evictOnly now a b) (h2 : evictOnly now b c) : evictOnly now a c := by
  intro k
  rcases h1 k with h | ⟨hnone, e, hsome, hexp⟩
  · rw [h]
    exact h2 k
  · rcases h2 k with h2k | ⟨h2none, _, _, _⟩
    · exact Or.inr ⟨hnone, e, h2k ▸ hsome, hexp⟩
    · rw [h2none] at hsome
      exact absurd hsome (by simp)

theorem evictOnly_storeLe {T : Type} {now : Int} {c1 c : Store T}
    (h : evictOnly now c1 c) : storeLe c1 c := by
  intro k
  rcases h k with hk | ⟨hnone, _⟩
  · exact Or.inl hk
  · exact Or.inr hnone

/-- A `get` leaves the store unchanged except possibly for deleting the
expired entry it found. -/
theorem get_snd_evictOnly {T : Type} (now : Int) (c : Store T) (k : String) :
    evictOnly now (get now c k).2 c := by
  intro k2
  rcases hck : c k with _ | e
  · simp [get, hck]
  · by_cases hexp : isExpired now e = true
    · by_cases hk : k2 = k
      · subst hk
        refine Or.inr ⟨?_, e, hck, hexp⟩
        simp [get, hck, hexp]
      · simp [get, hck, hexp, hk]
    · have hexp2 : isExpired now e = false := by simpa using hexp
      simp [get, hck, hexp2]

/-- A key that misses on a store also misses on any store obtained from it
by deletions. -/
theorem get_fst_none_of_storeLe {T : Type} (now : Int) {c1 c : Store T}
    (h : storeLe c1 c) (k : String) (hm : (get now c k).1 = none) :
    (get now c1 k).1 = none := by
  rcases h k with he | he
  · rcases hck : c k with _ | e
    · rw [hck] at he
      simp [get, he]
    · rw [hck] at he
      have hexp : isExpired now e = true := by
        by_contra hb
        have hexp2 : isExpired now e = false := by simpa using hb
        simp [get, hck, hexp2] at hm
      simp [get, he, hexp]
  · simp [get, he]

end CacheManager

namespace RobustLLMService

/-- If the provider loop ends in an error — every attempted provider threw —
then the provider rate counters and the per-caller quota map are exactly the
initial ones, and the cache differs only by eviction of entries that were
already expired during lookups. -/
theorem runProviders_error_state (oracle : String → Except ProviderError PartialResponse)
    (ttlConfig : CacheManager.CacheTTLConfig) (req : LLMRequest) (userId : String)
    (now est : Int) :
    ∀ (ps : List ProviderState) (st : BrokerState) (errors : List (String × ProviderError)),
      isErrorResult (runProviders oracle ttlConfig req userId now est ps st errors).result = true →
        (runProviders oracle ttlConfig req userId now est ps st errors).state.providers =
            st.providers ∧
          (runProviders oracle ttlConfig req userId now est ps st errors).state.userQuotas =
            st.userQuotas ∧
          CacheManager.evictOnly now
            (runProviders oracle ttlConfig req userId now est ps st errors).state.cache
            st.cache := by
  intro ps
  induction ps with
  | nil =>
      intro st errors _
      exact ⟨rfl, rfl, CacheManager.evictOnly_refl now st.cache⟩
  | cons p rest ih =>
      intro st errors herr
      by_cases hcan : canUseProvider p est = true
      · rcases hget : CacheManager.get now st.cache (createCacheKey req p.name) with ⟨ov, c1⟩
        have hc1 : c1 = (CacheManager.get now st.cache (createCacheKey req p.name)).2 := by
          rw [hget]
        have hevict : CacheManager.evictOnly now c1 st.cache := by
          rw [hc1]
          exact CacheManager.get_snd_evictOnly now st.cache (createCacheKey req p.name)
        cases ov with
        | some cached =>
            rw [runProviders_cacheHit oracle ttlConfig req userId now est p rest st errors
              cached c1 hcan hget] at herr
            simp [isErrorResult] at herr
        | none =>
            rcases horacle : oracle p.name with e | resp
            · by_cases hnr : isNonRetryableError e = true
              · rw [runProviders_fatal oracle ttlConfig req userId now est p rest st errors
                  c1 e hcan hget horacle hnr]
                exact ⟨rfl, rfl, hevict⟩
              · have hnr2 : isNonRetryableError e = false := by simpa using hnr
                rw [runProviders_retry oracle ttlConfig req userId now est p rest st errors
                  c1 e hcan hget horacle hnr2] at herr ⊢
                have hrec := ih { st with cache := c1 } (errors ++ [(p.name, e)]) herr
                exact ⟨hrec.1, hrec.2.1, CacheManager.evictOnly_trans hrec.2.2 hevict⟩
            · rw [runProviders_success oracle ttlConfig req userId now est p rest st errors
                c1 resp hcan hget horacle] at herr
              simp [isErrorResult] at herr
      · have hcan2 : canUseProvider p est = false := by simpa using hcan
        rw [runProviders_skip oracle ttlConfig req userId now est p rest st errors hcan2] at herr ⊢
        exact ih st errors herr

end RobustLLMService

/-- C8 (amended): charge-only-on-success.  In any `generateWithFallback` run
that ends in an error — i.e. no provider attempt fully succeeded — the
provider rate counters and the per-caller quota counters are exactly as
before the run, and the response cache is mutated at most by lazy eviction of
entries that were already expired when a cache lookup touched them: no cache
entry is added or modified without a fully successful provider call. -/
theorem charge_only_on_success (oracle : String → Except RobustLLMService.ProviderError
      RobustLLMService.PartialResponse)
    (estimate : String → Int) (ttlConfig : CacheManager.CacheTTLConfig)
    (req : RobustLLMService.LLMRequest) (userId : String) (now : Int)
    (st : RobustLLMService.BrokerState)
    (herr : RobustLLMService.isErrorResult
      (RobustLLMService.generateWithFallback oracle estimate ttlConfig req userId
        now st).result = true) :
    (RobustLLMService.generateWithFallback oracle estimate ttlConfig req userId
        now st).state.providers = st.providers ∧
      (RobustLLMService.generateWithFallback oracle estimate ttlConfig req userId
        now st).state.userQuotas = st.userQuotas ∧
      CacheManager.evictOnly now
        (RobustLLMService.generateWithFallback oracle estimate ttlConfig req userId
          now st).state.cache st.cache := by
  simp only [RobustLLMService.generateWithFallback] at herr ⊢
  rcases hq : RobustLLMService.checkUserQuota st.userQuotas userId (estimate req.prompt) with _ | e
  · rw [hq] at herr
    exact RobustLLMService.runProviders_error_state oracle ttlConfig req userId now
      (estimate req.prompt) (RobustLLMService.sortByPriority st.providers) st [] herr
  · exact ⟨rfl, rfl, CacheManager.evictOnly_refl now st.cache⟩

/-- A cache holding one already-expired entry (timestamp 0, ttl 3600 s, read
at t = 3,600,001 ms) under the openai fingerprint of `probeRequest`. -/
def expiredCache : CacheManager.Store RobustLLMService.PartialResponse :=
  fun k => if k = RobustLLMService.createCacheKey probeRequest "openai" then
    some ⟨⟨"stale", 5, 0⟩, 0, 3600⟩ else none

def expiredState : RobustLLMService.BrokerState := ⟨[openaiProvider], fun _ => none, expiredCache⟩

def expiredOutcome : RobustLLMService.GenOutcome :=
  RobustLLMService.generateWithFallback failingOracle (fun _ => 100) brokerTTLConfig
    probeRequest "default" 3600001 expiredState

/-- Counterexample for C8 as stated.  With an already-expired entry under the
openai key and a provider that throws, the run records no usage and ends in
an error — no attempt succeeded — yet the response cache was mutated by that
failing attempt: the lookup evicted the expired entry. -/
theorem charge_only_on_success_counterexample :
    RobustLLMService.isErrorResult expiredOutcome.result = true ∧
      RobustLLMService.recordedUses expiredOutcome.trace = [] ∧
      expiredState.cache (RobustLLMService.createCacheKey probeRequest "openai") =
        some ⟨⟨"stale", 5, 0⟩, 0, 3600⟩ ∧
      expiredOutcome.state.cache (RobustLLMService.createCacheKey probeRequest "openai") =
        none := by
  refine ⟨by decide, by decide, by decide, by decide⟩

/-- Witness for the amended C8 at the expired-entry scenario: the failing run
leaves counters and quotas unchanged and only evicts the expired entry. -/
theorem charge_only_on_success_witness :
    RobustLLMService.isErrorResult expiredOutcome.result = true ∧
      expiredOutcome.state.providers = expiredState.providers ∧
      expiredOutcome.state.userQuotas = expiredState.userQuotas ∧
      CacheManager.evictOnly 3600001 expiredOutcome.state.cache expiredState.cache := by
  have h := charge_only_on_success failingOracle (fun _ => 100) brokerTTLConfig
    probeRequest "default" 3600001 expiredState (by decide)
  exact ⟨by decide, h.1, h.2.1, h.2.2⟩

namespace RobustLLMService

/-- A provider attempt that cannot end the iteration: it is either skipped by
its rate-limit check, or it misses the cache (judged on the run's initial
store `c0`) and its execution fails retryably. -/
def preAttemptFails (oracle : String → Except ProviderError PartialResponse)
    (req : LLMRequest) (now est : Int) (c0 : CacheManager.Store PartialResponse)
    (q : ProviderState) : Bool :=
  !canUseProvider q est ||
    ((CacheManager.get now c0 (createCacheKey req q.name)).1.isNone &&
      (match oracle q.name with
       | .error e => !isNonRetryableError e
       | .ok _ => false))

/-- If every provider before `p` is skipped or fails retryably, and `p` is
admitted, misses the cache and fails with a non-retryable error, then the
loop ends there: the aggregate error's last entry is `p`'s fatal error, only
providers up to `p` were executed, and no usage was recorded. -/
theorem runProviders_fatal_aborts (oracle : String → Except ProviderError PartialResponse)
    (ttlConfig : CacheManager.CacheTTLConfig) (req : LLMRequest) (userId : String)
    (now est : Int) (p : ProviderState) (rest : List ProviderState)
    (efatal : ProviderError) (c0 : CacheManager.Store PartialResponse)
    (hcan : canUseProvider p est = true)
    (hmiss : (CacheManager.get now c0 (createCacheKey req p.name)).1 = none)
    (horacle : oracle p.name = .error efatal)
    (hnr : isNonRetryableError efatal = true) :
    ∀ (pre : List ProviderState) (st : BrokerState) (errors : List (String × ProviderError)),
      CacheManager.storeLe st.cache c0 →
      pre.all (preAttemptFails oracle req now est c0) = true →
      (∃ errs, (runProviders oracle ttlConfig req userId now est (pre ++ p :: rest)
            st errors).result = .error (.allProvidersFailed (errs ++ [(p.name, efatal)]))) ∧
        (∀ s ∈ execedProviders (runProviders oracle ttlConfig req userId now est
            (pre ++ p :: rest) st errors).trace,
          s ∈ pre.map (fun q => q.name) ∨ s = p.name) ∧
        recordedUses (runProviders oracle ttlConfig req userId now est (pre ++ p :: rest)
          st errors).trace = [] := by
  intro pre
  induction pre with
  | nil =>
      intro st errors hle _
      have hm : (CacheManager.get now st.cache (createCacheKey req p.name)).1 = none :=
        CacheManager.get_fst_none_of_storeLe now hle (createCacheKey req p.name) hmiss
      have hget : CacheManager.get now st.cache (createCacheKey req p.name) =
          (none, (CacheManager.get now st.cache (createCacheKey req p.name)).2) := by
        rw [← hm]
      rw [List.nil_append, runProviders_fatal oracle ttlConfig req userId now est p rest
        st errors _ efatal hcan hget horacle hnr]
      refine ⟨⟨errors, rfl⟩, ?_, rfl⟩
      intro s hs
      simp only [execedProviders, List.filterMap_cons, List.filterMap_nil] at hs
      simp at hs
      exact Or.inr hs
  | cons q pre2 ih =>
      intro st errors hle hall
      rw [List.all_cons, Bool.and_eq_true] at hall
      by_cases hq : canUseProvider q est = true
      · have hx : (CacheManager.get now c0 (createCacheKey req q.name)).1.isNone = true ∧
            (match oracle q.name with
             | .error e => !isNonRetryableError e
             | .ok _ => false) = true := by
          have h1 := hall.1
          rw [preAttemptFails, hq] at h1
          simpa using h1
        rcases hqo : oracle q.name with e2 | r2
        · rw [hqo] at hx
          have hnr2 : isNonRetryableError e2 = false := by
            simpa using hx.2
          have hm2 : (CacheManager.get now st.cache (createCacheKey req q.name)).1 = none :=
            CacheManager.get_fst_none_of_storeLe now hle (createCacheKey req q.name)
              (Option.isNone_iff_eq_none.mp hx.1)
          have hget2 : CacheManager.get now st.cache (createCacheKey req q.name) =
              (none, (CacheManager.get now st.cache (createCacheKey req q.name)).2) := by
            rw [← hm2]
          rw [List.cons_append, runProviders_retry oracle ttlConfig req userId now est q
            (pre2 ++ p :: rest) st errors _ e2 hq hget2 hqo hnr2]
          have hle2 : CacheManager.storeLe
              (CacheManager.get now st.cache (createCacheKey req q.name)).2 c0 :=
            CacheManager.storeLe_trans
              (CacheManager.evictOnly_storeLe
                (CacheManager.get_snd_evictOnly now st.cache (createCacheKey req q.name)))
              hle
          obtain ⟨h1, h2, h3⟩ := ih { st with cache :=
              (CacheManager.get now st.cache (createCacheKey req q.name)).2 }
            (errors ++ [(q.name, e2)]) hle2 hall.2
          refine ⟨h1, ?_, ?_⟩
          · intro s hs
            simp only [execedProviders, List.filterMap_append, List.filterMap_cons,
              List.filterMap_nil] at hs
            simp only [List.nil_append, List.singleton_append, List.mem_cons] at hs
            rcases hs with hs | hs
            · subst hs
              left
              simp
            · rcases h2 s hs with h | h
              · left
                simp only [List.map_cons, List.mem_cons]
                exact Or.inr (by simpa using h)
              · exact Or.inr h
          · simp only [recordedUses, List.filterMap_append, List.filterMap_cons,
              List.filterMap_nil] at h3 ⊢
            simpa using h3
        · rw [hqo] at hx
          exact absurd hx.2 (by simp)
      · have hq2 : canUseProvider q est = false := by
          simpa using hq
        rw [List.cons_append, runProviders_skip oracle ttlConfig req userId now est q
          (pre2 ++ p :: rest) st errors hq2]
        obtain ⟨h1, h2, h3⟩ := ih st errors hle hall.2
        refine ⟨h1, ?_, ?_⟩
        · intro s hs
          simp only [execedProviders, List.filterMap_cons] at hs
          rcases h2 s hs with h | h
          · left
            simp only [List.map_cons, List.mem_cons]
            exact Or.inr (by simpa using h)
          · exact Or.inr h
        · simp only [recordedUses, List.filterMap_cons] at h3 ⊢
          simpa using h3

end RobustLLMService

/-- C4: fatal error short-circuits.  If, in a run whose per-caller quota
check passes, every provider before `p` in priority order is skipped by its
rate-limit check or fails retryably, and `p` is admitted, misses the cache
and fails with a non-retryable error (status 400/401/403,
`context_length_exceeded`, or `invalid_request_error`), then the broker
attempts no provider after `p` (every executed provider is one of the
earlier ones or `p` itself), records no usage on any provider, and
`generateWithFallback` raises the fatal error to the caller as the final
entry of the thrown `AggregateError` — the only error channel the function
has. -/
theorem fatal_error_short_circuits (oracle : String → Except RobustLLMService.ProviderError
      RobustLLMService.PartialResponse)
    (estimate : String → Int) (ttlConfig : CacheManager.CacheTTLConfig)
    (req : RobustLLMService.LLMRequest) (userId : String) (now : Int)
    (st : RobustLLMService.BrokerState) (pre : List RobustLLMService.ProviderState)
    (p : RobustLLMService.ProviderState) (rest : List RobustLLMService.ProviderState)
    (efatal : RobustLLMService.ProviderError)
    (hquota : RobustLLMService.checkUserQuota st.userQuotas userId (estimate req.prompt) = none)
    (hsorted : RobustLLMService.sortByPriority st.providers = pre ++ p :: rest)
    (hpre : pre.all (RobustLLMService.preAttemptFails oracle req now (estimate req.prompt)
      st.cache) = true)
    (hcan : RobustLLMService.canUseProvider p (estimate req.prompt) = true)
    (hmiss : (CacheManager.get now st.cache (RobustLLMService.createCacheKey req p.name)).1 = none)
    (horacle : oracle p.name = .error efatal)
    (hnr : RobustLLMService.isNonRetryableError efatal = true) :
    ((RobustLLMService.raisedErrors
        (RobustLLMService.generateWithFallback oracle estimate ttlConfig req userId
          now st).result).getD []).getLast? = some (p.name, efatal) ∧
      (RobustLLMService.execedProviders
          (RobustLLMService.generateWithFallback oracle estimate ttlConfig req userId
            now st).trace).all
        (fun s => (pre.map (fun q => q.name) ++ [p.name]).contains s) = true ∧
      RobustLLMService.recordedUses
        (RobustLLMService.generateWithFallback oracle estimate ttlConfig req userId
          now st).trace = [] := by
  have hgen : RobustLLMService.generateWithFallback oracle estimate ttlConfig req userId now st =
      RobustLLMService.runProviders oracle ttlConfig req userId now (estimate req.prompt)
        (RobustLLMService.sortByPriority st.providers) st [] := by
    simp only [RobustLLMService.generateWithFallback]
    rw [hquota]
  rw [hgen, hsorted]
  obtain ⟨⟨errs, h1⟩, h2, h3⟩ := RobustLLMService.runProviders_fatal_aborts oracle ttlConfig
    req userId now (estimate req.prompt) p rest efatal st.cache hcan hmiss horacle hnr
    pre st [] (CacheManager.storeLe_refl st.cache) hpre
  refine ⟨?_, ?_, h3⟩
  · rw [h1]
    simp [RobustLLMService.raisedErrors, List.getLast?_concat]
  · apply List.all_eq_true.mpr
    intro s hs
    rcases h2 s hs with h | h
    · have hmem : s ∈ pre.map (fun q => q.name) ++ [p.name] := List.mem_append_left _ h
      simpa using hmem
    · have hmem : s ∈ pre.map (fun q => q.name) ++ [p.name] :=
        List.mem_append_right _ (by simp [h])
      simpa using hmem

/-- An oracle where openai fails fatally (HTTP 400) and any other provider
would succeed. -/
def fatalOracle : String → Except RobustLLMService.ProviderError
    RobustLLMService.PartialResponse :=
  fun n => if n = "openai" then .error ⟨some 400, none, none⟩ else .ok ⟨"fresh", 10, 0⟩

/-- Both providers configured, empty cache and quotas. -/
def fatalState : RobustLLMService.BrokerState :=
  ⟨[openaiProvider, anthropicProvider], fun _ => none, fun _ => none⟩

def fatalOutcome : RobustLLMService.GenOutcome :=
  RobustLLMService.generateWithFallback fatalOracle (fun _ => 100) brokerTTLConfig
    probeRequest "default" 0 fatalState

/-- Witness for C4: openai (priority 1) fails fatally; the aggregate error
ends with openai's fatal error, only openai was executed — anthropic
(priority 2), which would have succeeded, is never attempted — and no usage
was recorded. -/
theorem fatal_error_short_circuits_witness :
    ((RobustLLMService.raisedErrors fatalOutcome.result).getD []).getLast? =
        some ("openai", ⟨some 400, none, none⟩) ∧
      (RobustLLMService.execedProviders fatalOutcome.trace).all
        (fun s => (["openai"] : List String).contains s) = true ∧
      RobustLLMService.recordedUses fatalOutcome.trace = [] := by
  have h := fatal_error_short_circuits fatalOracle (fun _ => 100) brokerTTLConfig probeRequest
    "default" 0 fatalState [] openaiProvider [anthropicProvider] ⟨some 400, none, none⟩
    (by decide) (by decide) rfl (by decide) (by decide) rfl (by decide)
  exact ⟨h.1, by simpa using h.2.1, h.2.2⟩
